import Mathlib

/-!
Verification development for the `code-review-helper` static-analysis engine.

The definitions below are a shallow embedding of the TypeScript sources:
`src/detectors/javascript/complexity.ts`, the naming detector,
`src/detectors/javascript/duplication-detector.ts`, `src/detectors/base/detector.ts`,
`src/core/analyzer.ts` and the report/issue model (`models/report.ts`, `models/issue.ts`).

Modelling conventions:
* JavaScript numbers used for scores/similarities are modelled as `ℚ`
  (exact arithmetic; the spec describes the algorithms over exact decimals).
* `Math.round x` is modelled as `⌊x + 1/2⌋`, which agrees with JavaScript's
  `Math.round` on every real input.
* AST nodes are a rose tree.  A node carries the scalar fields the detectors
  read (`type`, `operator`, `name`, `value`, `kind`), the `loc` metadata object
  and the `parent` back-reference slice (`parent.kind` is the only parent field
  any detector reads; keeping the full back-edge would make the tree cyclic),
  plus an ordered association list of child fields.  A field holding an array
  of nodes is represented by repeating the key, which is indistinguishable from
  the original for every traversal in the sources (arrays and single objects
  are recursed identically, and keyed single-object access reads the first
  entry).  Scalar fields (strings/numbers) are never recursed by the sources'
  `for ... in` loops because of the `typeof child === 'object'` guard, and the
  `loc` object contains only `start`/`end` line/column numbers, so traversing
  into it never triggers any callback; it is therefore carried as metadata.
-/

namespace CodeReview

/-- A literal-like primitive stored in a node's `value` field. -/
inductive LitVal where
  | str (s : String)
  | num (n : Int)
  | bool (b : Bool)
deriving DecidableEq, Repr

/-- The `loc` metadata of a node (`loc.start.line`, `loc.start.column`,
`loc.end.line`, `loc.end.column`). -/
structure Loc where
  startLine : Nat
  startColumn : Nat
  endLine : Nat
  endColumn : Nat
deriving DecidableEq, Repr

/-- The slice of the `parent` back-reference read by the detectors: the naming
detector only ever reads `node.parent?.kind`. -/
structure ParentRef where
  kind : Option String
deriving DecidableEq, Repr

/-- Scalar fields of an AST node that the detectors read. -/
structure NodeAttrs where
  type : Option String
  operator : Option String
  name : Option String
  value : Option LitVal
  kind : Option String
  parent : Option ParentRef
  loc : Option Loc
deriving DecidableEq, Repr

/-- A node with no scalar fields set. -/
def NodeAttrs.none : NodeAttrs :=
  ⟨Option.none, Option.none, Option.none, Option.none, Option.none, Option.none, Option.none⟩

mutual
/-- An AST node: scalar attributes plus the ordered child fields. -/
inductive Node where
  | mk (attrs : NodeAttrs) (children : Fields)

/-- The ordered association list of child fields of a node. -/
inductive Fields where
  | nil
  | cons (key : String) (child : Node) (rest : Fields)
end

/-- Scalar attributes of a node. -/
def Node.attrs : Node → NodeAttrs
  | .mk a _ => a

/-- Child fields of a node. -/
def Node.children : Node → Fields
  | .mk _ c => c

/-- Keyed single-object field access (`node.id`, `node.key`, ...): the first
entry with the given key. -/
def Fields.get : Fields → String → Option Node
  | .nil, _ => none
  | .cons k c rest, key => if k = key then some c else Fields.get rest key

/-- Embeds `node.id?.name`: name of the `id` child, as read by the naming detector. -/
def Node.idName (n : Node) : Option String :=
  (n.children.get "id").bind (fun c => c.attrs.name)

/-- Embeds `node.parent?.kind`. -/
def Node.parentKind (n : Node) : Option String :=
  n.attrs.parent.bind (fun p => p.kind)

/-- Keys skipped by `traverseAST` / `traverseForComplexity` in every detector:
`parent`, `leadingComments`, `trailingComments`. -/
def traverseSkipKeys : List String := ["parent", "leadingComments", "trailingComments"]

mutual
/-- The nodes visited, in order, by the generic recursive traversal that all
detectors share (`traverseAST` in the duplication and naming detectors,
`traverseForComplexity` in the complexity detector — all three visit the node
itself and then recurse into every child field except `parent`,
`leadingComments` and `trailingComments`). -/
def visitedNodes : Node → List Node
  | .mk a ch => .mk a ch :: visitedFields ch

/-- Traversal of a node's child fields (see `visitedNodes`). -/
def visitedFields : Fields → List Node
  | .nil => []
  | .cons k c rest =>
      (if traverseSkipKeys.contains k then [] else visitedNodes c) ++ visitedFields rest
end

/-! ## Complexity detector (`src/detectors/javascript/complexity.ts`) -/

/-- The node types that increment cyclomatic complexity
(`complexityNodes` in `calculateCyclomaticComplexity`). -/
def complexityNodes : List String :=
  ["IfStatement", "ConditionalExpression", "SwitchCase", "ForStatement",
   "ForInStatement", "ForOfStatement", "WhileStatement", "DoWhileStatement",
   "CatchClause", "LogicalExpression"]

/-- Embeds `complexityNodes.includes(node.type)`. -/
def isBranchNode (n : Node) : Bool :=
  match n.attrs.type with
  | some t => complexityNodes.contains t
  | none => false

/-- A `LogicalExpression` node whose operator is `&&` or `||`. -/
def isAndOrNode (n : Node) : Bool :=
  n.attrs.type = some "LogicalExpression" &&
    (n.attrs.operator = some "&&" || n.attrs.operator = some "||")

/-- One step of the complexity accumulation: `complexity++` for a node in
`complexityNodes`, and one further `complexity++` when that node is a
`LogicalExpression` with operator `&&` or `||`. -/
def complexityStep (c : Nat) (n : Node) : Nat :=
  if isBranchNode n then (if isAndOrNode n then c + 2 else c + 1) else c

/-- Embeds `calculateCyclomaticComplexity`: base 1, stepped over every node the
traversal visits inside the function node. -/
def calculateCyclomaticComplexity (functionNode : Node) : Nat :=
  (visitedNodes functionNode).foldl complexityStep 1

/-- Embeds `isFunctionNode`. -/
def isFunctionNode (n : Node) : Bool :=
  n.attrs.type = some "FunctionDeclaration" ||
  n.attrs.type = some "FunctionExpression" ||
  n.attrs.type = some "ArrowFunctionExpression" ||
  n.attrs.type = some "MethodDefinition"

/-! ## Issue model (`src/models/issue.ts`) -/

/-- Embeds `IssueSeverity`. -/
inductive IssueSeverity where
  | low
  | medium
  | high
  | critical
deriving DecidableEq, Repr

/-- Embeds `IssueCategory`, in declaration order. -/
inductive IssueCategory where
  | complexity
  | naming
  | size
  | duplication
  | bestPractices
deriving DecidableEq, Repr

/-- Embeds `Object.values(IssueCategory)` in declaration order. -/
def allCategories : List IssueCategory :=
  [.complexity, .naming, .size, .duplication, .bestPractices]

/-- Embeds `IssueLocation`. -/
structure IssueLocation where
  file : String
  line : Nat
  column : Nat
  endLine : Option Nat
  endColumn : Option Nat
deriving DecidableEq, Repr

/-- Embeds `Issue`.  Ids are nondeterministic in the source
(`generateIssueId` mixes a timestamp and `Math.random`); they are threaded in
as explicit arguments wherever an issue is built. -/
structure Issue where
  id : String
  category : IssueCategory
  severity : IssueSeverity
  title : String
  description : String
  suggestion : String
  location : IssueLocation
  codeSnippet : Option String
  rule : String
deriving DecidableEq, Repr

/-! ## Parsed file (`src/detectors/base/detector.ts`) -/

/-- Embeds `ParsedFile`. -/
structure ParsedFile where
  path : String
  content : String
  ast : Node
  linesOfCode : Nat

/-- Embeds `BaseDetector.createLocation`: `loc.start.line ?? 1`, `loc.start.column ?? 0`
(nullish coalescing — a present line 0 is kept). -/
def createLocation (file : ParsedFile) (node : Node) : IssueLocation :=
  match node.attrs.loc with
  | some l => ⟨file.path, l.startLine, l.startColumn, some l.endLine, some l.endColumn⟩
  | none => ⟨file.path, 1, 0, none, none⟩

/-- Embeds `lineNumber.toString().padStart(3)`. -/
def padStart3 (s : String) : String :=
  if s.length ≥ 3 then s else String.mk (List.replicate (3 - s.length) ' ') ++ s

/-- Embeds `BaseDetector.extractCodeSnippet`: up to two lines of context before the
issue line and one line after, each prefixed with its 1-based number, the
issue line marked with an arrow. -/
def extractCodeSnippet (file : ParsedFile) (location : IssueLocation) : String :=
  let lines := file.content.splitOn "\n"
  let startLine := location.line - 2
  let endLine := min lines.length ((location.endLine.getD location.line) + 1)
  let slice := (lines.drop startLine).take (endLine - startLine)
  String.intercalate "\n" <| slice.enum.map fun p =>
    let lineNumber := startLine + p.1 + 1
    let pre := if lineNumber = location.line then "→ " else "  "
    pre ++ padStart3 (toString lineNumber) ++ ": " ++ p.2

/-! ## Naming detector: string classification helpers.

JavaScript strings are UTF-16; every classification below treats them
character-wise exactly as the source's ASCII regexes and
`toUpperCase`/`toLowerCase` do (the two coincide on ASCII, and each regex
only ever accepts ASCII characters). -/

/-- Embeds `[a-z]`. -/
def isLowerAZ (c : Char) : Bool := 97 ≤ c.toNat && c.toNat ≤ 122

/-- Embeds `[A-Z]`. -/
def isUpperAZ (c : Char) : Bool := 65 ≤ c.toNat && c.toNat ≤ 90

/-- Embeds `[0-9]`. -/
def isDigit09 (c : Char) : Bool := 48 ≤ c.toNat && c.toNat ≤ 57

/-- ASCII uppercasing of one character, as `String.prototype.toUpperCase`
acts on ASCII. -/
def jsToUpperChar (c : Char) : Char :=
  if isLowerAZ c then Char.ofNat (c.toNat - 32) else c

/-- ASCII lowercasing of one character. -/
def jsToLowerChar (c : Char) : Char :=
  if isUpperAZ c then Char.ofNat (c.toNat + 32) else c

/-- Embeds `name.toUpperCase()`. -/
def jsToUpper (s : String) : String := String.mk (s.data.map jsToUpperChar)

/-- Embeds `name.toLowerCase()`. -/
def jsToLower (s : String) : String := String.mk (s.data.map jsToLowerChar)

/-- Embeds `/^[a-z][a-zA-Z0-9]*$/`. -/
def isCamelCase (s : String) : Bool :=
  match s.data with
  | [] => false
  | c :: rest => isLowerAZ c && rest.all (fun d => isLowerAZ d || isUpperAZ d || isDigit09 d)

/-- Embeds `/^[A-Z][a-zA-Z0-9]*$/`. -/
def isPascalCase (s : String) : Bool :=
  match s.data with
  | [] => false
  | c :: rest => isUpperAZ c && rest.all (fun d => isLowerAZ d || isUpperAZ d || isDigit09 d)

/-- Embeds `/^[A-Z][A-Z0-9_]*$/`. -/
def isUpperSnakeCase (s : String) : Bool :=
  match s.data with
  | [] => false
  | c :: rest => isUpperAZ c && rest.all (fun d => isUpperAZ d || isDigit09 d || d = '_')

/-- Embeds `/^[a-zA-Z]?[0-9]+$/`. -/
def isNumberOnly (s : String) : Bool :=
  match s.data with
  | [] => false
  | c :: rest =>
      if isLowerAZ c || isUpperAZ c then rest ≠ [] && rest.all isDigit09
      else (c :: rest).all isDigit09

/-- Embeds `/__/` : two consecutive underscores somewhere in the name. -/
def hasConsecutiveUnderscoresList : List Char → Bool
  | [] => false
  | [_] => false
  | c :: d :: rest => (c = '_' && d = '_') || hasConsecutiveUnderscoresList (d :: rest)

/-- Embeds `hasConsecutiveUnderscores`. -/
def hasConsecutiveUnderscores (s : String) : Bool :=
  hasConsecutiveUnderscoresList s.data

/-! ## Naming detector (`NamingDetector`) -/

/-- The `reservedWords` denylist. -/
def reservedWords : List String :=
  ["temp", "tmp", "data", "info", "obj", "item", "elem", "val", "num"]

/-- The `abbreviations` denylist. -/
def abbreviations : List String :=
  ["btn", "txt", "img", "div", "el", "str", "arr", "fn"]

/-- The naming detector's length thresholds (defaults 3 and 30). -/
structure NamingThresholds where
  minLength : Nat
  maxLength : Nat

/-- Default naming thresholds. -/
def defaultNamingThresholds : NamingThresholds := ⟨3, 30⟩

/-- Embeds `NamingDetector.analyzeIdentifier`: the list of problem strings for one
identifier, in the order the source pushes them. -/
def analyzeIdentifier (cfg : NamingThresholds) (name : String) (type : String) : List String :=
  (if name.length < cfg.minLength then
    ["muito curto (" ++ toString name.length ++ " caracteres, mín " ++
      toString cfg.minLength ++ ")"] else []) ++
  (if name.length > cfg.maxLength then
    ["muito longo (" ++ toString name.length ++ " caracteres, máx " ++
      toString cfg.maxLength ++ ")"] else []) ++
  (if type = "constante" && !isUpperSnakeCase name then
    ["constantes devem usar UPPER_SNAKE_CASE"] else []) ++
  (if type = "classe" && !isPascalCase name then
    ["classes devem usar PascalCase"] else []) ++
  (if ["função", "método", "variável", "propriedade"].contains type &&
      !(type = "constante") && !isCamelCase name then
    [type ++ "s devem usar camelCase"] else []) ++
  (if reservedWords.contains (jsToLower name) then
    ["usa palavra genérica/reservada - seja mais descritivo"] else []) ++
  (if abbreviations.contains (jsToLower name) then
    ["usa abreviação - considere palavra completa"] else []) ++
  (if isNumberOnly name then
    ["consiste apenas de números/letras - seja mais descritivo"] else []) ++
  (if hasConsecutiveUnderscores name then
    ["tem underscores consecutivos"] else [])

/-- Embeds `NamingDetector.isConstantVariable`: the declarator's parent is a `const`
declaration, `node.id?.name` is truthy (a non-empty string) and the name is
already its own uppercasing. -/
def isConstantVariable (n : Node) : Bool :=
  n.parentKind = some "const" &&
    (match n.idName with
     | some s => !(s = "") && s = jsToUpper s
     | none => false)

/-- The role a `VariableDeclarator` is classified as in `checkVariableName`. -/
def variableType (n : Node) : String :=
  if isConstantVariable n then "constante" else "variável"

/-- Embeds `NamingDetector.checkVariableName`: the problem strings produced for a
variable declarator (one naming issue is emitted per problem string). -/
def checkVariableName (cfg : NamingThresholds) (n : Node) : List String :=
  match n.idName with
  | some name => analyzeIdentifier cfg name (variableType n)
  | none => []

/-! ## Duplication detector (`src/detectors/javascript/duplication-detector.ts`) -/

/-- Keys skipped by `extractTokens`' recursion: `parent`, `loc`, `range`. -/
def extractSkipKeys : List String := ["parent", "loc", "range"]

mutual
/-- Embeds `extractTokens`: linearize a node into the token sequence pushed by
`extractFromNode` — the node's `type` tag (when truthy, i.e. a non-empty
string), its `operator` string when present, a generic `IDENTIFIER` marker when
a `name` string is present, a generic `LITERAL` marker when `value` is a string
or a number, then the children in field order. -/
def extractTokens : Node → List String
  | .mk a ch =>
      (match a.type with | some t => if t = "" then [] else [t] | none => []) ++
      (match a.operator with | some op => [op] | none => []) ++
      (match a.name with | some _ => ["IDENTIFIER"] | none => []) ++
      (match a.value with
       | some (.str _) => ["LITERAL"]
       | some (.num _) => ["LITERAL"]
       | _ => []) ++
      extractTokensFields ch

/-- Token extraction over a node's child fields (see `extractTokens`). -/
def extractTokensFields : Fields → List String
  | .nil => []
  | .cons k c rest =>
      (if extractSkipKeys.contains k then [] else extractTokens c) ++ extractTokensFields rest
end

/-- Coercion of an integer to a signed 32-bit value, as JavaScript's bitwise
operators perform it. -/
def toInt32 (x : Int) : Int := (x + 2 ^ 31) % 2 ^ 32 - 2 ^ 31

/-- One step of `calculateHash`'s loop: `hash = ((hash << 5) - hash) + char`
followed by `hash = hash & hash`.  `hash << 5` coerces `hash * 32` to int32,
the subtraction and addition are exact, and `hash & hash` coerces the result
back to int32. -/
def hashStep (h : Int) (c : Nat) : Int := toInt32 (toInt32 (h * 32) - h + c)

/-- Embeds `calculateHash`: the rolling 32-bit hash of `tokens.join('|')`, iterated
over its character codes (the tokens are node-type tags, operator strings and
the `IDENTIFIER`/`LITERAL` markers, all ASCII, where UTF-16 code units and code
points coincide).  The source renders the final value with `toString(36)`,
an injective formatting of the integer, so the hash is modelled as the integer
itself. -/
def calculateHash (tokens : List String) : Int :=
  (String.intercalate "|" tokens).data.foldl (fun h c => hashStep h c.toNat) 0

/-- Embeds `CodeBlock`. -/
structure CodeBlock where
  id : String
  startLine : Nat
  endLine : Nat
  tokens : List String
  hash : Int
  node : Node
  filePath : String

/-- Embeds `createCodeBlock`: `startLine = node.loc?.start?.line || 1` and
`endLine = node.loc?.end?.line || startLine` (`||`, so a 0 line is replaced). -/
def createCodeBlock (file : ParsedFile) (node : Node) (id : String) : CodeBlock :=
  let startLine := match node.attrs.loc with
    | some l => if l.startLine = 0 then 1 else l.startLine
    | none => 1
  let endLine := match node.attrs.loc with
    | some l => if l.endLine = 0 then startLine else l.endLine
    | none => startLine
  let tokens := extractTokens node
  ⟨id, startLine, endLine, tokens, calculateHash tokens, node, file.path⟩

/-- Embeds `endLine - startLine + 1`, as JavaScript number arithmetic. -/
def lineSpan (b : CodeBlock) : Int := (b.endLine : Int) - b.startLine + 1

/-- The duplication detector's configuration (defaults: enabled, minLines 6,
minTokens 50, similarityThreshold 0.85). -/
structure DuplicationConfig where
  enabled : Bool
  minLines : Nat
  minTokens : Nat
  similarityThreshold : ℚ

/-- The default duplication configuration. -/
def defaultDuplicationConfig : DuplicationConfig := ⟨true, 6, 50, 85 / 100⟩

/-- Embeds `isValidBlock`: at least `minLines` lines and `minTokens` tokens. -/
def isValidBlock (cfg : DuplicationConfig) (b : CodeBlock) : Bool :=
  (cfg.minLines : Int) ≤ lineSpan b && cfg.minTokens ≤ b.tokens.length

/-- Embeds `extractableTypes` in `isExtractableNode`. -/
def extractableTypes : List String :=
  ["FunctionDeclaration", "FunctionExpression", "ArrowFunctionExpression",
   "MethodDefinition", "BlockStatement", "IfStatement", "ForStatement",
   "WhileStatement", "SwitchStatement"]

/-- Embeds `isExtractableNode`. -/
def isExtractableNode (n : Node) : Bool :=
  match n.attrs.type with
  | some t => extractableTypes.contains t
  | none => false

/-- Embeds `extractCodeBlocks`: every extractable node the traversal visits becomes a
candidate with id `` `${file.path}_${blockId++}` `` (the counter advances per
extractable node), and only candidates passing `isValidBlock` are kept. -/
def extractCodeBlocks (cfg : DuplicationConfig) (file : ParsedFile) : List CodeBlock :=
  ((((visitedNodes file.ast).filter isExtractableNode).enum.map fun p =>
      createCodeBlock file p.2 (file.path ++ "_" ++ toString p.1)).filter
    (isValidBlock cfg))

/-- Embeds `findCommonTokens`: the number of distinct tokens of `tokens1` (the set
built from it) that the set of `tokens2` also contains. -/
def findCommonTokens (tokens1 tokens2 : List String) : Nat :=
  (tokens1.dedup.filter fun t => tokens2.contains t).length

/-- Embeds `calculateSimilarity`: 1.0 on fingerprint equality, 0 when either token
sequence is empty, otherwise shared distinct tokens over the larger total
token count. -/
def calculateSimilarity (block1 block2 : CodeBlock) : ℚ :=
  if block1.hash = block2.hash then 1
  else if block1.tokens.length = 0 ∨ block2.tokens.length = 0 then 0
  else (findCommonTokens block1.tokens block2.tokens : ℚ) /
        (max block1.tokens.length block2.tokens.length : ℚ)

/-- Embeds `DuplicationMatch`. -/
structure DuplicationMatch where
  block1 : CodeBlock
  block2 : CodeBlock
  similarity : ℚ
  duplicatedLines : Int

/-- The key `` `${a.filePath}:${a.startLine}-${b.filePath}:${b.startLine}` ``
used by `deduplicateMatches`. -/
def matchKey (a b : CodeBlock) : String :=
  a.filePath ++ ":" ++ toString a.startLine ++ "-" ++ b.filePath ++ ":" ++ toString b.startLine

/-- Embeds `deduplicateMatches`: keep a match only when neither its forward nor its
swapped key has been kept before; output in insertion order, as `Map`
iteration yields it. -/
def deduplicateMatches (duplications : List DuplicationMatch) : List DuplicationMatch :=
  (duplications.foldl
    (fun acc m =>
      let key1 := matchKey m.block1 m.block2
      let key2 := matchKey m.block2 m.block1
      if acc.1.contains key1 || acc.1.contains key2 then acc
      else (key1 :: acc.1, acc.2 ++ [m]))
    (([] : List String), ([] : List DuplicationMatch))).2

/-- Embeds `findDuplications`: compare every block of the current file against every
accumulated block (`this.codeBlocks`, which at this point already contains the
current file's blocks), skipping identical ids and same-file pairs, keeping
pairs at or above the similarity threshold with `duplicatedLines` the minimum
of the two line spans, then deduplicating symmetric pairs. -/
def findDuplications (threshold : ℚ) (allBlocks fileBlocks : List CodeBlock) :
    List DuplicationMatch :=
  deduplicateMatches <| fileBlocks.flatMap fun block1 =>
    allBlocks.filterMap fun block2 =>
      if block1.id = block2.id ∨ block1.filePath = block2.filePath then none
      else
        let similarity := calculateSimilarity block1 block2
        if threshold ≤ similarity then
          some ⟨block1, block2, similarity, min (lineSpan block1) (lineSpan block2)⟩
        else none

/-- Embeds `Math.round`, which agrees with `⌊x + 1/2⌋` on every real. -/
def jsRound (q : ℚ) : Int := Int.floor (q + 1 / 2)

/-- Embeds `getSeverityBySimilarity`. -/
def getSeverityBySimilarity (similarity : ℚ) (duplicatedLines : Int) : IssueSeverity :=
  if 95 / 100 ≤ similarity ∧ 20 ≤ duplicatedLines then .critical
  else if 90 / 100 ≤ similarity ∧ 15 ≤ duplicatedLines then .high
  else if 85 / 100 ≤ similarity ∧ 10 ≤ duplicatedLines then .medium
  else .low

/-- Embeds `createDuplicationIssue` (the issue id, nondeterministic in the source, is
an explicit argument). -/
def createDuplicationIssue (file : ParsedFile) (id : String) (d : DuplicationMatch) : Issue :=
  let severity := getSeverityBySimilarity d.similarity d.duplicatedLines
  let otherFile := if d.block2.filePath = file.path then d.block1 else d.block2
  let pct := toString (jsRound (d.similarity * 100))
  { id := id
    category := .duplication
    severity := severity
    title := "Código duplicado detectado (" ++ pct ++ "% similar)"
    description := "Bloco de código com " ++ toString d.duplicatedLines ++
      " linha(s) é " ++ pct ++ "% similar ao código em " ++ otherFile.filePath ++
      ":" ++ toString otherFile.startLine ++ "-" ++ toString otherFile.endLine ++ "."
    suggestion := "Extraia o código duplicado em uma função ou módulo reutilizável. Considere criar uma função utilitária que possa ser importada em ambos os locais."
    location := createLocation file d.block1.node
    codeSnippet := some (extractCodeSnippet file (createLocation file d.block1.node))
    rule := "codigo-duplicado" }

/-- The duplication detector's cross-file state: the append-only block
collection and the processed-file set. -/
structure DupState where
  codeBlocks : List CodeBlock
  processedFiles : List String

/-- The empty duplication state (a fresh detector, or after `reset()`). -/
def DupState.empty : DupState := ⟨[], []⟩

/-- The matches `DuplicationDetector.detect` reports for one file: the file's
blocks are appended to the accumulated collection first, and the new blocks are
then compared against the whole collection. -/
def detectMatches (cfg : DuplicationConfig) (st : DupState) (file : ParsedFile) :
    List DuplicationMatch :=
  let fileBlocks := extractCodeBlocks cfg file
  findDuplications cfg.similarityThreshold (st.codeBlocks ++ fileBlocks) fileBlocks

/-- Embeds `DuplicationDetector.detect`: disabled detectors return no issues and touch
nothing; otherwise the file's blocks are extracted and appended, the file is
marked processed, and one issue is emitted per retained match (issue ids are
threaded in as the match index). -/
def duplicationDetect (cfg : DuplicationConfig) (st : DupState) (file : ParsedFile) :
    List Issue × DupState :=
  if !cfg.enabled then ([], st)
  else
    let fileBlocks := extractCodeBlocks cfg file
    let blocks := st.codeBlocks ++ fileBlocks
    let processed :=
      if st.processedFiles.contains file.path then st.processedFiles
      else st.processedFiles ++ [file.path]
    let duplications := findDuplications cfg.similarityThreshold blocks fileBlocks
    (duplications.enum.map fun p =>
      createDuplicationIssue file ("DuplicationDetector_" ++ toString p.1) p.2,
     ⟨blocks, processed⟩)

/-! ## Complexity detector: issue pipeline -/

/-- The complexity detector's configuration.  The source's threshold keys are
`function` and `file`; both are reserved-ish names here, so they are spelled
out (defaults 10 and 20). -/
structure ComplexityConfig where
  enabled : Bool
  functionThreshold : Nat
  fileThreshold : Nat

/-- The default complexity configuration. -/
def defaultComplexityConfig : ComplexityConfig := ⟨true, 10, 20⟩

/-- Embeds `getSeverityByComplexity`. -/
def getSeverityByComplexity (complexity : Nat) : IssueSeverity :=
  if 20 ≤ complexity then .critical
  else if 15 ≤ complexity then .high
  else if 10 ≤ complexity then .medium
  else .low

/-- A truthy string option: `o?.name` used in an `if`, where the empty string
is falsy. -/
def truthyName (o : Option String) : Option String :=
  match o with
  | some s => if s = "" then none else some s
  | none => none

/-- Embeds `extractFunctionName`. -/
def extractFunctionName (n : Node) : String :=
  match truthyName n.idName with
  | some name => name
  | none =>
    match truthyName ((n.children.get "key").bind (fun c => c.attrs.name)) with
    | some name => name
    | none =>
      if n.attrs.type = some "ArrowFunctionExpression" then "função arrow anônima"
      else "função anônima"

/-- The location used by `createFunctionComplexityIssue`: a missing `loc` is
first replaced by a line-1/column-0 span, then `createLocation` reads it. -/
def complexityIssueLocation (file : ParsedFile) (node : Node) : IssueLocation :=
  let l := node.attrs.loc.getD ⟨1, 0, 1, 0⟩
  ⟨file.path, l.startLine, l.startColumn, some l.endLine, some l.endColumn⟩

/-- Embeds `createFunctionComplexityIssue` (issue ids are nondeterministic in the
source and fixed to the detector name here; no theorem depends on them). -/
def createFunctionComplexityIssue (cfg : ComplexityConfig) (file : ParsedFile)
    (node : Node) (complexity : Nat) : Issue :=
  { id := "ComplexityDetector"
    category := .complexity
    severity := getSeverityByComplexity complexity
    title := "Alta complexidade ciclomática: " ++ toString complexity
    description := "A função \"" ++ extractFunctionName node ++
      "\" tem complexidade ciclomática de " ++ toString complexity ++
      ", que excede o limite de " ++ toString cfg.functionThreshold ++ "."
    suggestion := "Considere dividir esta função em funções menores e mais focadas. Extraia blocos lógicos em funções separadas para melhorar a legibilidade e manutenibilidade."
    location := complexityIssueLocation file node
    codeSnippet := some (extractCodeSnippet file (complexityIssueLocation file node))
    rule := "complexidade-ciclomatica" }

/-- Embeds `calculateFileComplexity`: the rounded mean complexity over every function
node in the file, 0 when there are none. -/
def calculateFileComplexity (ast : Node) : Int :=
  let fns := (visitedNodes ast).filter isFunctionNode
  if fns.length = 0 then 0
  else jsRound ((fns.foldl (fun s f => s + (calculateCyclomaticComplexity f : ℚ)) 0) / fns.length)

/-- Embeds `createFileComplexityIssue`. -/
def createFileComplexityIssue (cfg : ComplexityConfig) (file : ParsedFile)
    (complexity : Int) : Issue :=
  { id := "ComplexityDetector"
    category := .complexity
    severity := .medium
    title := "Alta complexidade do arquivo: " ++ toString complexity
    description := "O arquivo tem uma complexidade ciclomática média de " ++
      toString complexity ++ ", que excede o limite de " ++
      toString cfg.fileThreshold ++ "."
    suggestion := "Considere dividir este arquivo em múltiplos arquivos menores. Agrupe funções relacionadas e extraia-as em módulos separados."
    location := ⟨file.path, 1, 0, none, none⟩
    codeSnippet := none
    rule := "complexidade-arquivo" }

/-- The issues `ComplexityDetector.detect` accumulates when enabled: one issue
per visited function node whose complexity exceeds the `function` threshold (in
traversal order), then a file-level issue when the mean exceeds the `file`
threshold. -/
def complexityDetectIssues (cfg : ComplexityConfig) (file : ParsedFile) : List Issue :=
  (((visitedNodes file.ast).filter isFunctionNode).filterMap fun n =>
    let c := calculateCyclomaticComplexity n
    if cfg.functionThreshold < c then some (createFunctionComplexityIssue cfg file n c)
    else none) ++
  (let fc := calculateFileComplexity file.ast
   if (cfg.fileThreshold : Int) < fc then [createFileComplexityIssue cfg file fc] else [])

/-- Embeds `ComplexityDetector.detect`: disabled detectors return an empty list before
touching the tree. -/
def complexityDetect (cfg : ComplexityConfig) (file : ParsedFile) : List Issue :=
  if !cfg.enabled then [] else complexityDetectIssues cfg file

/-! ## Detector boundary (`BaseDetector` + the shared `detect` skeleton)

Every concrete `detect` has the shape

```
if (!this.isEnabled()) return [];
const issues = [];
try { ...traverse, pushing into issues... } catch (error) { log(error); }
return issues;
```

`detectGuard` embeds that skeleton.  The body's outcome is a pair of the
issues pushed before control left the `try` block and an optional caught
error; the method's result is `Except`-typed so that "an exception propagates
to the caller" is representable — and provably never happens. -/
def detectGuard (enabled : Bool) (body : List Issue × Option String) :
    Except String (List Issue) :=
  if !enabled then Except.ok []
  else Except.ok body.1

/-! ## Score aggregation (`Analyzer.calculateFileScore`,
`ReportBuilder`, `src/models/report.ts`) -/

/-- Rounding to 2 decimal places: `Math.round(x * 100) / 100`. -/
def round2 (q : ℚ) : ℚ := (jsRound (q * 100) : ℚ) / 100

/-- The per-issue penalty by severity in `calculateFileScore`. -/
def severityPenalty : IssueSeverity → ℚ
  | .critical => 10
  | .high => 5
  | .medium => 2
  | .low => 1

/-- Embeds `Analyzer.calculateFileScore`. -/
def calculateFileScore (issues : List Issue) (linesOfCode : Nat) : ℚ :=
  if issues.length = 0 then 100
  else
    let penalty := issues.foldl (fun p i => p + severityPenalty i.severity) 0
    let sizeAdjustment := min ((linesOfCode : ℚ) / 100) 2
    let adjustedPenalty := penalty / (1 + sizeAdjustment * (1 / 10))
    let score := max 0 (100 - adjustedPenalty)
    round2 score

/-- Embeds `FileAnalysis`. -/
structure FileAnalysis where
  path : String
  linesOfCode : Nat
  issues : List Issue
  score : ℚ
deriving DecidableEq, Repr

/-- Embeds `AnalysisOptions`. -/
structure AnalysisOptions where
  language : String
  includePatterns : List String
  excludePatterns : List String
deriving DecidableEq, Repr

/-- The per-severity buckets of a `CategorySummary`. -/
structure SeverityBuckets where
  low : Nat
  medium : Nat
  high : Nat
  critical : Nat
deriving DecidableEq, Repr

/-- Embeds `CategorySummary`. -/
structure CategorySummary where
  category : IssueCategory
  count : Nat
  severity : SeverityBuckets
deriving DecidableEq, Repr

/-- The report's summary block.  The `analysisDate` timestamp is the only
field omitted: it is wall-clock input with no claim about it. -/
structure ReportSummary where
  totalFiles : Nat
  totalIssues : Nat
  totalLinesOfCode : Nat
  overallScore : ℚ
  options : AnalysisOptions
deriving DecidableEq, Repr

/-- The builder's report-in-progress; `build()` returns it unchanged, so this
is also the `Report`. -/
structure ReportState where
  files : List FileAnalysis
  summary : ReportSummary
  categories : List CategorySummary
  topIssues : List Issue
deriving DecidableEq, Repr

/-- Embeds `ReportBuilder.create().withOptions(options)`: the initial report, with
`overallScore` 0. -/
def ReportBuilder.create (options : AnalysisOptions) : ReportState :=
  { files := []
    summary :=
      { totalFiles := 0, totalIssues := 0, totalLinesOfCode := 0,
        overallScore := 0, options := options }
    categories := []
    topIssues := [] }

/-- Embeds `ReportBuilder.calculateOverallScore`: 100 for an empty file list,
otherwise the mean of the per-file scores rounded to 2 decimals. -/
def calculateOverallScore (files : List FileAnalysis) : ℚ :=
  if files.length = 0 then 100
  else round2 ((files.foldl (fun sum f => sum + f.score) 0) / files.length)

/-- A zeroed `CategorySummary` for one category. -/
def emptyCategorySummary (category : IssueCategory) : CategorySummary :=
  ⟨category, 0, ⟨0, 0, 0, 0⟩⟩

/-- Embeds `summary.severity[issue.severity]++`. -/
def bumpBucket (b : SeverityBuckets) : IssueSeverity → SeverityBuckets
  | .low => { b with low := b.low + 1 }
  | .medium => { b with medium := b.medium + 1 }
  | .high => { b with high := b.high + 1 }
  | .critical => { b with critical := b.critical + 1 }

/-- One `updateCategories` loop step: bump the count and the matching severity
bucket of the issue's category. -/
def bumpCategory (summaries : List CategorySummary) (i : Issue) : List CategorySummary :=
  summaries.map fun s =>
    if s.category = i.category then
      { s with count := s.count + 1, severity := bumpBucket s.severity i.severity }
    else s

/-- Embeds `updateCategories`: seed one zeroed summary per category, fold the issues
through, drop empty categories and sort by count descending (`Map` iteration
and V8's stable sort make the result deterministic). -/
def updateCategories (issues : List Issue) : List CategorySummary :=
  ((issues.foldl bumpCategory (allCategories.map emptyCategorySummary)).filter
      (fun c => 0 < c.count)).mergeSort
    (fun a b => b.count ≤ a.count)

/-- Embeds `severityWeight` in `updateTopIssues`. -/
def severityWeight : IssueSeverity → Nat
  | .critical => 4
  | .high => 3
  | .medium => 2
  | .low => 1

/-- Embeds `updateTopIssues`: stable-sort by severity weight descending, keep 10. -/
def updateTopIssues (issues : List Issue) : List Issue :=
  (issues.mergeSort fun a b => severityWeight b.severity ≤ severityWeight a.severity).take 10

/-- Embeds `updateSummary` (with `updateCategories` and `updateTopIssues`): every
summary field is recomputed from the current file list. -/
def updateSummaryState (files : List FileAnalysis) (options : AnalysisOptions) : ReportState :=
  let allIssues := files.flatMap (fun f => f.issues)
  { files := files
    summary :=
      { totalFiles := files.length
        totalIssues := allIssues.length
        totalLinesOfCode := files.foldl (fun sum f => sum + f.linesOfCode) 0
        overallScore := calculateOverallScore files
        options := options }
    categories := updateCategories allIssues
    topIssues := updateTopIssues allIssues }

/-- Embeds `ReportBuilder.addFile`: push the analysis, then recompute the summary. -/
def addFile (st : ReportState) (f : FileAnalysis) : ReportState :=
  updateSummaryState (st.files ++ [f]) st.summary.options

/-- The report built by a sequence of `addFile` calls on a fresh builder
(`build()` returns the state unchanged). -/
def runBuilder (options : AnalysisOptions) (fs : List FileAnalysis) : ReportState :=
  fs.foldl addFile (ReportBuilder.create options)

/-! ## Identifier renaming (statement device for the renaming hyperproperty)

Two syntax trees "differ only in the name fields of their identifiers"
exactly when erasing every `name` field value (keeping its presence) makes
them equal. -/

mutual
/-- Replace every present `name` field value by the empty string, keeping its
presence; all other data is untouched. -/
def eraseNames : Node → Node
  | .mk a ch => .mk { a with name := a.name.map fun _ => "" } (eraseNamesFields ch)

/-- Embeds `eraseNames` over child fields. -/
def eraseNamesFields : Fields → Fields
  | .nil => .nil
  | .cons k c rest => .cons k (eraseNames c) (eraseNamesFields rest)
end

/-! ## Concrete examples used by counterexamples and witnesses -/

/-- An `Identifier` node. -/
def identNode (s : String) : Node :=
  .mk { NodeAttrs.none with type := some "Identifier", name := some s } .nil

/-- An empty `BlockStatement`. -/
def emptyBlock : Node :=
  .mk { NodeAttrs.none with type := some "BlockStatement" } .nil

/-- Embeds `a && b`. -/
def exampleAndAnd : Node :=
  .mk { NodeAttrs.none with type := some "LogicalExpression", operator := some "&&" }
    (.cons "left" (identNode "a") (.cons "right" (identNode "b") .nil))

/-- Embeds `if (a && b) {}`. -/
def exampleIf : Node :=
  .mk { NodeAttrs.none with type := some "IfStatement" }
    (.cons "test" exampleAndAnd (.cons "consequent" emptyBlock .nil))

/-- Embeds `for (;;) {}`. -/
def exampleFor : Node :=
  .mk { NodeAttrs.none with type := some "ForStatement" }
    (.cons "body" emptyBlock .nil)

/-- Embeds `function foo() { if (a && b) {} for (;;) {} }`: exactly one `if`, one
`&&` and one `for` loop. -/
def exampleFunctionNode : Node :=
  .mk { NodeAttrs.none with type := some "FunctionDeclaration" }
    (.cons "id" (identNode "foo")
      (.cons "body"
        (.mk { NodeAttrs.none with type := some "BlockStatement" }
          (.cons "body" exampleIf (.cons "body" exampleFor .nil)))
        .nil))

/-- Embeds `const MAX_RETRIES = ...`'s declarator, with the parent declaration's
`kind` visible through the back-reference. -/
def constDeclarator : Node :=
  .mk { NodeAttrs.none with type := some "VariableDeclarator", parent := some ⟨some "const"⟩ }
    (.cons "id" (identNode "MAX_RETRIES") .nil)

/-- Embeds `let MAX_RETRIES = ...`'s declarator. -/
def letDeclarator : Node :=
  .mk { NodeAttrs.none with type := some "VariableDeclarator", parent := some ⟨some "let"⟩ }
    (.cons "id" (identNode "MAX_RETRIES") .nil)

/-- Embeds `alpha + beta`. -/
def renamedExpr1 : Node :=
  .mk { NodeAttrs.none with type := some "BinaryExpression", operator := some "+" }
    (.cons "left" (identNode "alpha") (.cons "right" (identNode "beta") .nil))

/-- Embeds `gamma + delta`: `renamedExpr1` with both identifiers renamed. -/
def renamedExpr2 : Node :=
  .mk { NodeAttrs.none with type := some "BinaryExpression", operator := some "+" }
    (.cons "left" (identNode "gamma") (.cons "right" (identNode "delta") .nil))

/-- A node with no fields at all. -/
def trivialNode : Node := .mk NodeAttrs.none .nil

/-- A six-line code block under `a.ts`. -/
def blockA : CodeBlock := ⟨"a.ts_0", 1, 6, ["T"], 1, trivialNode, "a.ts"⟩

/-- The same shape of block under `b.ts`, with the same fingerprint. -/
def blockB : CodeBlock := ⟨"b.ts_0", 1, 6, ["T"], 1, trivialNode, "b.ts"⟩

/-- A parsed file for `a.ts`. -/
def exampleParsedFile : ParsedFile := ⟨"a.ts", "", trivialNode, 10⟩

/-- Default analysis options. -/
def exampleOptions : AnalysisOptions := ⟨"javascript", [], []⟩

/-- A medium-severity complexity issue located in `f.ts`. -/
def exampleIssue : Issue :=
  ⟨"i1", .complexity, .medium, "t", "d", "s", ⟨"f.ts", 1, 0, none, none⟩, none, "r"⟩

/-- An analysis of `f.ts` carrying `exampleIssue`. -/
def exampleFileAnalysis : FileAnalysis := ⟨"f.ts", 10, [exampleIssue], 98⟩

/-! # Theorems -/

/-- A `&&`/`||` logical expression is itself one of the branch node types
(`LogicalExpression` is in `complexityNodes`). -/
theorem isBranchNode_of_isAndOrNode (n : Node) (h : isAndOrNode n = true) :
    isBranchNode n = true := by
  simp only [isAndOrNode, Bool.and_eq_true, decide_eq_true_eq] at h
  simp [isBranchNode, h.1, complexityNodes]

/-- Folding `complexityStep` counts the branch nodes once and the `&&`/`||`
nodes once more. -/
theorem foldl_complexityStep (l : List Node) (c : Nat) :
    l.foldl complexityStep c =
      c + (l.filter isBranchNode).length + (l.filter isAndOrNode).length := by
  induction l generalizing c with
  | nil => simp
  | cons n rest ih =>
      rw [List.foldl_cons, ih]
      by_cases hb : isBranchNode n = true
      · by_cases ha : isAndOrNode n = true
        · simp [List.filter_cons, hb, ha, complexityStep]; omega
        · simp [List.filter_cons, hb, ha, complexityStep]; omega
      · have ha : ¬ isAndOrNode n = true := fun ha => hb (isBranchNode_of_isAndOrNode n ha)
        simp [List.filter_cons, hb, ha, complexityStep]

/-- C1 (counterexample): a function containing exactly one `if` statement, one
`&&` expression and one `for` loop has cyclomatic complexity 5, not the 4 the
claim asserts — the `&&` contributes twice (once as a `LogicalExpression`
branch node and once more for its operator). -/
theorem complexity_example_is_five_not_four :
    calculateCyclomaticComplexity exampleFunctionNode = 5 ∧
    ¬ calculateCyclomaticComplexity exampleFunctionNode = 4 := by
  constructor <;> decide

/-- C1 (amended): for every node, the computed cyclomatic complexity is 1 plus
one increment per branch-introducing construct in its subtree plus one further
increment per logical `&&`/`||` occurrence (so each `&&`/`||` adds two in
total); in particular a function containing exactly one `if` statement, one
`&&` expression and one `for` loop has complexity 5. -/
theorem complexity_formula :
    (∀ n : Node,
      calculateCyclomaticComplexity n =
        1 + ((visitedNodes n).filter isBranchNode).length +
          ((visitedNodes n).filter isAndOrNode).length) ∧
    calculateCyclomaticComplexity exampleFunctionNode = 5 := by
  refine ⟨fun n => ?_, by decide⟩
  exact foldl_complexityStep (visitedNodes n) 1

/-- The number of shared distinct tokens is at most the larger total token
count. -/
theorem findCommonTokens_le_max (t1 t2 : List String) :
    findCommonTokens t1 t2 ≤ max t1.length t2.length := by
  calc findCommonTokens t1 t2 ≤ t1.dedup.length := List.length_filter_le _ _
    _ ≤ t1.length := (List.dedup_sublist t1).length_le
    _ ≤ max t1.length t2.length := le_max_left _ _

/-- With an empty token sequence on either side there are no shared tokens. -/
theorem findCommonTokens_eq_zero_of_empty (t1 t2 : List String)
    (h : t1.length = 0 ∨ t2.length = 0) : findCommonTokens t1 t2 = 0 := by
  rcases h with h | h
  · rw [List.length_eq_zero] at h
    subst h
    rfl
  · rw [List.length_eq_zero] at h
    subst h
    simp [findCommonTokens]

/-- C4: for any two code blocks, equal fingerprint hashes give similarity
exactly 1.0, and otherwise the similarity is the number of tokens shared by
the two blocks' distinct token sets divided by the larger of the two total
token-sequence lengths; the similarity always lies in [0, 1]. -/
theorem calculateSimilarity_spec (b1 b2 : CodeBlock) :
    calculateSimilarity b1 b2 =
      (if b1.hash = b2.hash then 1
       else (findCommonTokens b1.tokens b2.tokens : ℚ) /
             (max b1.tokens.length b2.tokens.length : ℚ)) ∧
    0 ≤ calculateSimilarity b1 b2 ∧ calculateSimilarity b1 b2 ≤ 1 := by
  unfold calculateSimilarity
  by_cases hh : b1.hash = b2.hash
  · simp [hh]
  · rw [if_neg hh, if_neg hh]
    by_cases he : b1.tokens.length = 0 ∨ b2.tokens.length = 0
    · rw [if_pos he]
      rw [findCommonTokens_eq_zero_of_empty _ _ he]
      norm_num
    · rw [if_neg he]
      push_neg at he
      have hpos : (0 : ℚ) < (max b1.tokens.length b2.tokens.length : ℚ) := by
        have : 0 < max b1.tokens.length b2.tokens.length :=
          lt_max_of_lt_left (Nat.pos_of_ne_zero he.1)
        exact_mod_cast this
      refine ⟨rfl, div_nonneg (by positivity) hpos.le, ?_⟩
      rw [div_le_one hpos]
      exact_mod_cast findCommonTokens_le_max b1.tokens b2.tokens

/-- Folding the per-issue penalty accumulates the severity-weighted sum. -/
theorem foldl_penalty (issues : List Issue) (c : ℚ) :
    issues.foldl (fun p i => p + severityPenalty i.severity) c =
      c + (issues.map fun i => severityPenalty i.severity).sum := by
  induction issues generalizing c with
  | nil => simp
  | cons i rest ih => simp [ih, add_assoc]

/-- Embeds `Math.round(100 * 100) / 100 = 100`. -/
theorem round2_hundred : round2 100 = 100 := by
  have : ((100 : ℚ) * 100 + 1 / 2) = 20001 / 2 := by norm_num
  rw [round2, jsRound, this]
  norm_num

/-- Embeds `round2` keeps non-negative values non-negative. -/
theorem round2_nonneg (q : ℚ) (h : 0 ≤ q) : 0 ≤ round2 q := by
  rw [round2]
  have : (0 : ℤ) ≤ ⌊q * 100 + 1 / 2⌋ := Int.floor_nonneg.mpr (by positivity)
  positivity

/-- Embeds `round2` keeps values at most 100 at most 100. -/
theorem round2_le_hundred (q : ℚ) (h : q ≤ 100) : round2 q ≤ 100 := by
  rw [round2, jsRound]
  have h1 : q * 100 + 1 / 2 ≤ 20001 / 2 := by nlinarith
  have h2 : ⌊q * 100 + 1 / 2⌋ ≤ ⌊(20001 / 2 : ℚ)⌋ := Int.floor_le_floor h1
  have h3 : ⌊(20001 / 2 : ℚ)⌋ = 10000 := by norm_num
  rw [h3] at h2
  have : (⌊q * 100 + 1 / 2⌋ : ℚ) ≤ 10000 := by exact_mod_cast h2
  linarith

/-- The size-adjusted denominator `1 + min(linesOfCode/100, 2) * 0.1` is
positive. -/
theorem scoreDenom_pos (linesOfCode : Nat) :
    (0 : ℚ) < 1 + min ((linesOfCode : ℚ) / 100) 2 * (1 / 10) := by
  have h0 : (0 : ℚ) ≤ min ((linesOfCode : ℚ) / 100) 2 :=
    le_min (by positivity) (by norm_num)
  nlinarith

/-- C6: a file with zero issues scores exactly 100, and in general the file
score is 100 minus the severity-weighted penalty (critical 10, high 5,
medium 2, low 1) divided by `1 + min(linesOfCode/100, 2) * 0.1`, clamped to
[0, 100] and rounded to 2 decimal places; the clamp above is vacuous because
the penalty is non-negative, so `max 0 _` realizes it. -/
theorem calculateFileScore_spec (issues : List Issue) (linesOfCode : Nat) :
    calculateFileScore [] linesOfCode = 100 ∧
    calculateFileScore issues linesOfCode =
      round2 (max 0 (100 -
        ((issues.map fun i => severityPenalty i.severity).sum) /
          (1 + min ((linesOfCode : ℚ) / 100) 2 * (1 / 10)))) ∧
    0 ≤ calculateFileScore issues linesOfCode ∧
    calculateFileScore issues linesOfCode ≤ 100 := by
  have hden := scoreDenom_pos linesOfCode
  have hpen : (0 : ℚ) ≤ (issues.map fun i => severityPenalty i.severity).sum := by
    apply List.sum_nonneg
    intro x hx
    obtain ⟨i, _, rfl⟩ := List.mem_map.mp hx
    cases i.severity <;> norm_num [severityPenalty]
  have hform : calculateFileScore issues linesOfCode =
      round2 (max 0 (100 -
        ((issues.map fun i => severityPenalty i.severity).sum) /
          (1 + min ((linesOfCode : ℚ) / 100) 2 * (1 / 10)))) := by
    unfold calculateFileScore
    by_cases hnil : issues.length = 0
    · rw [if_pos hnil]
      rw [List.length_eq_zero] at hnil
      subst hnil
      simp only [List.map_nil, List.sum_nil, zero_div, sub_zero]
      rw [max_eq_right (by norm_num : (0 : ℚ) ≤ 100), round2_hundred]
    · rw [if_neg hnil, foldl_penalty]
      simp
  refine ⟨?_, hform, ?_, ?_⟩
  · simp [calculateFileScore]
  · rw [hform]
    exact round2_nonneg _ (le_max_left _ _)
  · rw [hform]
    apply round2_le_hundred
    have hq : (0 : ℚ) ≤ (issues.map fun i => severityPenalty i.severity).sum /
        (1 + min ((linesOfCode : ℚ) / 100) 2 * (1 / 10)) := div_nonneg hpen hden.le
    apply max_le (by norm_num)
    linarith

/-- Embeds `addFile` sequences append to the file list. -/
theorem foldl_addFile_files (st : ReportState) (fs : List FileAnalysis) :
    (fs.foldl addFile st).files = st.files ++ fs := by
  induction fs generalizing st with
  | nil => simp
  | cons f rest ih =>
      rw [List.foldl_cons, ih]
      simp [addFile, updateSummaryState]

/-- Embeds `addFile` sequences keep the analysis options. -/
theorem foldl_addFile_options (st : ReportState) (fs : List FileAnalysis) :
    (fs.foldl addFile st).summary.options = st.summary.options := by
  induction fs generalizing st with
  | nil => rfl
  | cons f rest ih =>
      rw [List.foldl_cons, ih]
      rfl

/-- After at least one `addFile`, the whole report state is the summary
recomputation over exactly the added files. -/
theorem runBuilder_eq_updateSummaryState (options : AnalysisOptions)
    (fs : List FileAnalysis) (h : fs ≠ []) :
    runBuilder options fs = updateSummaryState fs options := by
  rcases (List.eq_nil_or_concat fs) with rfl | ⟨ys, y, rfl⟩
  · exact absurd rfl h
  · rw [runBuilder, List.concat_eq_append, List.foldl_append, List.foldl_cons, List.foldl_nil]
    rw [addFile, foldl_addFile_options, foldl_addFile_files]
    simp [ReportBuilder.create]

/-- Summing scores by folding equals the mapped sum. -/
theorem foldl_score_sum (fs : List FileAnalysis) (c : ℚ) :
    fs.foldl (fun sum f => sum + f.score) c = c + (fs.map fun f => f.score).sum := by
  induction fs generalizing c with
  | nil => simp
  | cons f rest ih => simp [ih, add_assoc]

/-- C2 (counterexample): a report built with no `addFile` calls has overall
score 0, not 100 — the builder initializes `overallScore` to 0 and only
recomputes the summary inside `addFile`, so `calculateOverallScore`'s
empty-list default of 100 is never consulted for an empty report. -/
theorem emptyReport_overallScore_zero :
    (runBuilder exampleOptions []).summary.overallScore = 0 ∧
    ¬ (runBuilder exampleOptions []).summary.overallScore = 100 := by
  constructor
  · rfl
  · intro h
    have : (0 : ℚ) = 100 := h
    norm_num at this

/-- C2 (amended): after at least one `addFile`, the report's overall score is
the arithmetic mean of the per-file scores rounded to 2 decimal places; a
report built with an empty file set (no `addFile` calls) keeps the builder's
initial overall score 0. -/
theorem overallScore_spec :
    (∀ (options : AnalysisOptions) (fs : List FileAnalysis), fs ≠ [] →
      (runBuilder options fs).summary.overallScore =
        round2 ((fs.map fun f => f.score).sum / fs.length)) ∧
    ∀ options : AnalysisOptions, (runBuilder options []).summary.overallScore = 0 := by
  constructor
  · intro options fs h
    rw [runBuilder_eq_updateSummaryState options fs h]
    have hlen : fs.length ≠ 0 := fun hl => h (List.length_eq_zero.mp hl)
    simp only [updateSummaryState, calculateOverallScore, if_neg hlen]
    rw [foldl_score_sum]
    norm_num
  · intro options
    rfl

/-- Witness for C2 (amended): one concrete `addFile`. -/
theorem overallScore_spec_witness :
    (runBuilder exampleOptions [exampleFileAnalysis]).summary.overallScore =
      round2 (([exampleFileAnalysis].map fun f => f.score).sum /
        ([exampleFileAnalysis] : List FileAnalysis).length) :=
  overallScore_spec.1 exampleOptions [exampleFileAnalysis] (by simp)

/-- The count/severity-bucket invariant of one category summary. -/
def catInv (c : CategorySummary) : Prop :=
  c.count = c.severity.low + c.severity.medium + c.severity.high + c.severity.critical

/-- Bumping a category with one issue preserves the bucket invariant. -/
theorem bumpCategory_inv (summaries : List CategorySummary) (i : Issue)
    (h : ∀ c ∈ summaries, catInv c) : ∀ c ∈ bumpCategory summaries i, catInv c := by
  intro c hc
  obtain ⟨s, hs, rfl⟩ := List.mem_map.mp hc
  have hinv := h s hs
  by_cases hcat : s.category = i.category
  · cases i.severity <;> simp [hcat, catInv, bumpBucket, catInv] at hinv ⊢ <;> omega
  · simp [hcat, hinv]

/-- Folding issues through `bumpCategory` preserves the bucket invariant. -/
theorem foldl_bumpCategory_inv (issues : List Issue) (init : List CategorySummary)
    (h : ∀ c ∈ init, catInv c) : ∀ c ∈ issues.foldl bumpCategory init, catInv c := by
  induction issues generalizing init with
  | nil => exact h
  | cons i rest ih =>
      rw [List.foldl_cons]
      exact ih _ (bumpCategory_inv init i h)

/-- Every summary produced by `updateCategories` satisfies the bucket
invariant. -/
theorem updateCategories_inv (issues : List Issue) :
    ∀ c ∈ updateCategories issues, catInv c := by
  intro c hc
  unfold updateCategories at hc
  rw [List.mem_mergeSort] at hc
  have hc' := (List.mem_filter.mp hc).1
  refine foldl_bumpCategory_inv issues (allCategories.map emptyCategorySummary) ?_ c hc'
  intro s hs
  obtain ⟨cat, _, rfl⟩ := List.mem_map.mp hs
  simp [emptyCategorySummary, catInv]

/-- C7: for every report state reachable by any sequence of `addFile` calls,
each `CategorySummary.count` equals the sum of its four severity buckets, and
`summary.totalIssues` equals the sum of the per-file issue-list lengths. -/
theorem report_invariants (options : AnalysisOptions) (fs : List FileAnalysis) :
    (∀ c ∈ (runBuilder options fs).categories,
      c.count = c.severity.low + c.severity.medium + c.severity.high + c.severity.critical) ∧
    (runBuilder options fs).summary.totalIssues =
      ((runBuilder options fs).files.map fun f => f.issues.length).sum := by
  by_cases h : fs = []
  · subst h
    exact ⟨fun c hc => absurd hc (List.not_mem_nil c), rfl⟩
  · rw [runBuilder_eq_updateSummaryState options fs h]
    constructor
    · intro c hc
      exact updateCategories_inv _ c hc
    · simp only [updateSummaryState]
      rw [List.length_flatMap]
      rfl

/-- Witness for C7: one file with one medium complexity issue. -/
theorem report_invariants_witness :
    (⟨.complexity, 1, ⟨0, 1, 0, 0⟩⟩ : CategorySummary).count =
      (⟨.complexity, 1, ⟨0, 1, 0, 0⟩⟩ : CategorySummary).severity.low +
      (⟨.complexity, 1, ⟨0, 1, 0, 0⟩⟩ : CategorySummary).severity.medium +
      (⟨.complexity, 1, ⟨0, 1, 0, 0⟩⟩ : CategorySummary).severity.high +
      (⟨.complexity, 1, ⟨0, 1, 0, 0⟩⟩ : CategorySummary).severity.critical ∧
    (runBuilder exampleOptions [exampleFileAnalysis]).summary.totalIssues =
      ((runBuilder exampleOptions [exampleFileAnalysis]).files.map fun f => f.issues.length).sum := by
  have h := report_invariants exampleOptions [exampleFileAnalysis]
  refine ⟨h.1 _ ?_, h.2⟩
  have hcat : (runBuilder exampleOptions [exampleFileAnalysis]).categories =
      [⟨.complexity, 1, ⟨0, 1, 0, 0⟩⟩] := by
    rw [runBuilder_eq_updateSummaryState _ _ (by simp)]
    simp [updateSummaryState, updateCategories, allCategories, emptyCategorySummary,
      bumpCategory, bumpBucket, exampleFileAnalysis, exampleIssue, List.mergeSort]
  rw [hcat]
  exact List.mem_singleton.mpr rfl

/-- A character in the classes `[A-Z]`, `[0-9]` or `_` is fixed by ASCII
uppercasing. -/
theorem jsToUpperChar_eq_self (c : Char)
    (h : (isUpperAZ c || (isDigit09 c || decide (c = '_'))) = true) :
    jsToUpperChar c = c := by
  have hnot : ¬ isLowerAZ c = true := by
    simp only [isUpperAZ, isDigit09, isLowerAZ, Bool.or_eq_true, Bool.and_eq_true,
      decide_eq_true_eq] at h ⊢
    rcases h with h | h | h
    · omega
    · omega
    · subst h
      decide
  rw [jsToUpperChar, if_neg hnot]

/-- Mapping a function that fixes every element of a list is the identity. -/
theorem map_eq_self_of_fixed {α : Type} (f : α → α) :
    ∀ l : List α, (∀ x ∈ l, f x = x) → l.map f = l := by
  intro l
  induction l with
  | nil => intro _; rfl
  | cons x rest ih =>
      intro h
      rw [List.map_cons, h x (List.mem_cons_self x rest),
        ih fun y hy => h y (List.mem_cons_of_mem x hy)]

/-- An `UPPER_SNAKE_CASE` name is its own uppercasing. -/
theorem jsToUpper_eq_self_of_upperSnake (s : String) (h : isUpperSnakeCase s = true) :
    jsToUpper s = s := by
  obtain ⟨data⟩ := s
  rw [jsToUpper]
  cases data with
  | nil => rfl
  | cons c rest =>
      simp only [isUpperSnakeCase, Bool.and_eq_true, List.all_eq_true] at h
      have hfix : ∀ x ∈ c :: rest, jsToUpperChar x = x := by
        intro x hx
        rcases List.mem_cons.mp hx with rfl | hx'
        · exact jsToUpperChar_eq_self x (by simp [h.1])
        · exact jsToUpperChar_eq_self x (by simpa [or_assoc] using h.2 x hx')
      rw [map_eq_self_of_fixed jsToUpperChar (c :: rest) hfix]

/-- An `UPPER_SNAKE_CASE` name starts with `[A-Z]`, hence fails the camelCase
pattern. -/
theorem isCamelCase_false_of_upperSnake (s : String) (h : isUpperSnakeCase s = true) :
    isCamelCase s = false := by
  obtain ⟨data⟩ := s
  cases data with
  | nil => rfl
  | cons c rest =>
      simp only [isUpperSnakeCase, Bool.and_eq_true] at h
      have hlow : isLowerAZ c = false := by
        rw [Bool.eq_false_iff]
        intro hcontra
        simp only [isLowerAZ, Bool.and_eq_true, decide_eq_true_eq] at hcontra
        have h1 := h.1
        simp only [isUpperAZ, Bool.and_eq_true, decide_eq_true_eq] at h1
        omega
      simp [isCamelCase, hlow]

/-- An `UPPER_SNAKE_CASE` name is non-empty. -/
theorem ne_empty_of_upperSnake (s : String) (h : isUpperSnakeCase s = true) :
    ¬ s = "" := by
  intro he
  subst he
  simp [isUpperSnakeCase] at h

/-- C3: a `VariableDeclarator` whose parent binding is `const` and whose name
is `UPPER_SNAKE_CASE` (hence already all-uppercase) and otherwise
unobjectionable (within the length bounds, not a denylisted word or
abbreviation, not digits-only, no doubled underscores) is classified as a
constant and produces no problems at all — in particular no casing problem —
while the same name on a `let` binding is classified as a plain variable and
is flagged with exactly the camelCase violation. -/
theorem constant_vs_let_naming (cfg : NamingThresholds) (n : Node) (N : String)
    (hname : n.idName = some N)
    (hsnake : isUpperSnakeCase N = true)
    (hmin : ¬ N.length < cfg.minLength) (hmax : ¬ N.length > cfg.maxLength)
    (hres : reservedWords.contains (jsToLower N) = false)
    (habb : abbreviations.contains (jsToLower N) = false)
    (hnum : isNumberOnly N = false)
    (hund : hasConsecutiveUnderscores N = false) :
    (n.parentKind = some "const" →
      isConstantVariable n = true ∧ variableType n = "constante" ∧
      checkVariableName cfg n = []) ∧
    (n.parentKind = some "let" →
      isConstantVariable n = false ∧ variableType n = "variável" ∧
      checkVariableName cfg n = ["variávels devem usar camelCase"]) := by
  have hupper := jsToUpper_eq_self_of_upperSnake N hsnake
  have hne := ne_empty_of_upperSnake N hsnake
  have hcamel := isCamelCase_false_of_upperSnake N hsnake
  have hres' : jsToLower N ∉ reservedWords := by simpa using hres
  have habb' : jsToLower N ∉ abbreviations := by simpa using habb
  constructor
  · intro hk
    have hconst : isConstantVariable n = true := by
      simp [isConstantVariable, hk, hname, hne, hupper]
    refine ⟨hconst, by simp [variableType, hconst], ?_⟩
    rw [checkVariableName, hname]
    simp only [variableType, hconst, if_true]
    simp [analyzeIdentifier, hmin, hmax, hsnake, hres', habb', hnum, hund]
  · intro hk
    have hconst : isConstantVariable n = false := by
      simp [isConstantVariable, hk]
    refine ⟨hconst, by simp [variableType, hconst], ?_⟩
    rw [checkVariableName, hname]
    simp only [variableType, hconst, Bool.false_eq_true, if_false]
    simp [analyzeIdentifier, hmin, hmax, hsnake, hres', habb', hnum, hund, hcamel]

/-- Witness for C3: `MAX_RETRIES` on a `const` and on a `let` declarator. -/
theorem constant_vs_let_naming_witness :
    (isConstantVariable constDeclarator = true ∧
      variableType constDeclarator = "constante" ∧
      checkVariableName defaultNamingThresholds constDeclarator = []) ∧
    (isConstantVariable letDeclarator = false ∧
      variableType letDeclarator = "variável" ∧
      checkVariableName defaultNamingThresholds letDeclarator =
        ["variávels devem usar camelCase"]) := by
  constructor
  · exact (constant_vs_let_naming defaultNamingThresholds constDeclarator "MAX_RETRIES"
      (by decide) (by decide) (by decide) (by decide) (by decide) (by decide)
      (by decide) (by decide)).1 (by decide)
  · exact (constant_vs_let_naming defaultNamingThresholds letDeclarator "MAX_RETRIES"
      (by decide) (by decide) (by decide) (by decide) (by decide) (by decide)
      (by decide) (by decide)).2 (by decide)

/-- Elements kept by the deduplication fold come from the kept accumulator or
from the input list. -/
theorem dedup_foldl_subset (ms : List DuplicationMatch) :
    ∀ (keys : List String) (kept : List DuplicationMatch) (x : DuplicationMatch),
      x ∈ (ms.foldl
        (fun acc m =>
          let key1 := matchKey m.block1 m.block2
          let key2 := matchKey m.block2 m.block1
          if acc.1.contains key1 || acc.1.contains key2 then acc
          else (key1 :: acc.1, acc.2 ++ [m])) (keys, kept)).2 →
      x ∈ kept ∨ x ∈ ms := by
  induction ms with
  | nil => exact fun keys kept x hx => Or.inl hx
  | cons m rest ih =>
      intro keys kept x hx
      rw [List.foldl_cons] at hx
      dsimp only at hx
      split at hx
      · exact (ih _ _ _ hx).imp_right (List.mem_cons_of_mem m)
      · rcases ih _ _ _ hx with hk | hr
        · rcases List.mem_append.mp hk with hk' | hm
          · exact Or.inl hk'
          · right
            rw [List.mem_singleton.mp hm]
            exact List.mem_cons_self m rest
        · exact Or.inr (List.mem_cons_of_mem m hr)

/-- Embeds `deduplicateMatches` only ever selects matches from its input. -/
theorem deduplicateMatches_subset (ms : List DuplicationMatch) (x : DuplicationMatch)
    (hx : x ∈ deduplicateMatches ms) : x ∈ ms := by
  rw [deduplicateMatches] at hx
  rcases dedup_foldl_subset ms [] [] x hx with h | h
  · exact absurd h (List.not_mem_nil x)
  · exact h

/-- Inversion for membership in the raw (pre-deduplication) comparison list:
the pair was not skipped and reached the threshold. -/
theorem findDuplications_mem_inv (threshold : ℚ) (allBlocks fileBlocks : List CodeBlock)
    (m : DuplicationMatch) (hm : m ∈ findDuplications threshold allBlocks fileBlocks) :
    ∃ b1 b2, b1 ∈ fileBlocks ∧ b2 ∈ allBlocks ∧
      ¬ (b1.id = b2.id ∨ b1.filePath = b2.filePath) ∧
      threshold ≤ calculateSimilarity b1 b2 ∧
      m = ⟨b1, b2, calculateSimilarity b1 b2, min (lineSpan b1) (lineSpan b2)⟩ := by
  rw [findDuplications] at hm
  have hm' := deduplicateMatches_subset _ _ hm
  obtain ⟨b1, hb1, hmem⟩ := List.mem_flatMap.mp hm'
  obtain ⟨b2, hb2, heq⟩ := List.mem_filterMap.mp hmem
  by_cases hskip : b1.id = b2.id ∨ b1.filePath = b2.filePath
  · rw [if_pos hskip] at heq
    exact absurd heq (by simp)
  · rw [if_neg hskip] at heq
    dsimp only at heq
    by_cases hθ : threshold ≤ calculateSimilarity b1 b2
    · rw [if_pos hθ] at heq
      exact ⟨b1, b2, hb1, hb2, hskip, hθ, (Option.some.inj heq).symm⟩
    · rw [if_neg hθ] at heq
      exact absurd heq (by simp)

/-- C5: every pair of blocks a retained duplication match reports lives in two
different files — the same-file (and same-block) comparisons are skipped before
any similarity is computed.  `DuplicationDetector.detect` only ever emits
issues for matches of `findDuplications` applied to the accumulated block
collection and the current file's blocks, so this holds for the issues of
every `detect` call, whatever sequence of calls produced the accumulated
state. -/
theorem duplication_matches_cross_file (threshold : ℚ) (allBlocks fileBlocks : List CodeBlock)
    (m : DuplicationMatch) (hm : m ∈ findDuplications threshold allBlocks fileBlocks) :
    ¬ m.block1.filePath = m.block2.filePath := by
  obtain ⟨b1, b2, _, _, hskip, _, rfl⟩ := findDuplications_mem_inv threshold allBlocks fileBlocks m hm
  exact (not_or.mp hskip).2

/-- Witness for C5: identical six-line blocks in `a.ts` and `b.ts` match
(similarity 1.0 via equal fingerprints) and the reported pair crosses the two
files. -/
theorem duplication_matches_cross_file_witness : ¬ blockA.filePath = blockB.filePath := by
  have hev : findDuplications (85 / 100) [blockB] [blockA] =
      [⟨blockA, blockB, 1, 6⟩] := by
    norm_num [findDuplications, deduplicateMatches, calculateSimilarity, matchKey,
      lineSpan, blockA, blockB, List.filterMap_cons, List.filterMap_nil,
      List.foldl_cons, List.foldl_nil, min_self]
    rfl
  exact duplication_matches_cross_file (85 / 100) [blockB] [blockA] ⟨blockA, blockB, 1, 6⟩
    (by rw [hev]; exact List.mem_singleton.mpr rfl)

/-- C10: every retained duplication match reports as `duplicatedLines` the
minimum of the two blocks' line spans (`endLine - startLine + 1` each), and the
issue built from the match takes its severity from `getSeverityBySimilarity`
applied to the match's similarity and that minimum. -/
theorem duplication_lines_and_severity (threshold : ℚ) (allBlocks fileBlocks : List CodeBlock)
    (m : DuplicationMatch) (hm : m ∈ findDuplications threshold allBlocks fileBlocks) :
    m.duplicatedLines = min (lineSpan m.block1) (lineSpan m.block2) ∧
    ∀ (file : ParsedFile) (id : String),
      (createDuplicationIssue file id m).severity =
        getSeverityBySimilarity m.similarity m.duplicatedLines := by
  obtain ⟨b1, b2, _, _, _, _, rfl⟩ := findDuplications_mem_inv threshold allBlocks fileBlocks m hm
  exact ⟨rfl, fun file id => rfl⟩

/-- Witness for C10: the concrete cross-file match of the two six-line blocks
has `duplicatedLines = min 6 6` and its issue's severity is the one derived
from similarity 1.0 and 6 lines (low: below every line-count threshold). -/
theorem duplication_lines_and_severity_witness :
    (⟨blockA, blockB, 1, 6⟩ : DuplicationMatch).duplicatedLines =
      min (lineSpan blockA) (lineSpan blockB) ∧
    (createDuplicationIssue exampleParsedFile "id0" ⟨blockA, blockB, 1, 6⟩).severity =
      getSeverityBySimilarity 1 6 := by
  have hev : findDuplications (85 / 100) [blockB] [blockA] =
      [⟨blockA, blockB, 1, 6⟩] := by
    norm_num [findDuplications, deduplicateMatches, calculateSimilarity, matchKey,
      lineSpan, blockA, blockB, List.filterMap_cons, List.filterMap_nil,
      List.foldl_cons, List.foldl_nil, min_self]
    rfl
  have h := duplication_lines_and_severity (85 / 100) [blockB] [blockA]
    ⟨blockA, blockB, 1, 6⟩ (by rw [hev]; exact List.mem_singleton.mpr rfl)
  exact ⟨h.1, h.2 exampleParsedFile "id0"⟩

mutual
/-- Token extraction is blind to identifier name values: erasing them changes
nothing, because only the presence of a `name` field is consulted. -/
theorem extractTokens_eraseNames (n : Node) :
    extractTokens (eraseNames n) = extractTokens n := by
  cases n with
  | mk a ch =>
      rw [eraseNames, extractTokens, extractTokens,
        extractTokensFields_eraseNames ch]
      cases a.name <;> rfl

/-- Fields version of `extractTokens_eraseNames`. -/
theorem extractTokensFields_eraseNames (fs : Fields) :
    extractTokensFields (eraseNamesFields fs) = extractTokensFields fs := by
  cases fs with
  | nil => rfl
  | cons k c rest =>
      rw [eraseNamesFields, extractTokensFields, extractTokensFields,
        extractTokensFields_eraseNames rest]
      by_cases hk : extractSkipKeys.contains k = true
      · rw [if_pos hk, if_pos hk]
      · rw [if_neg hk, if_neg hk, extractTokens_eraseNames c]
end

/-- C8: two syntax subtrees that differ only in the name fields of their
identifiers (i.e. that are equal after erasing every name value) produce
identical token sequences, hence identical fingerprint hashes, and any two
code blocks extracted from them have similarity exactly 1.0 — renaming
identifiers in a duplicated block cannot change whether it is detected. -/
theorem rename_invariance (n1 n2 : Node) (h : eraseNames n1 = eraseNames n2) :
    extractTokens n1 = extractTokens n2 ∧
    calculateHash (extractTokens n1) = calculateHash (extractTokens n2) ∧
    ∀ (f1 f2 : ParsedFile) (id1 id2 : String),
      calculateSimilarity (createCodeBlock f1 n1 id1) (createCodeBlock f2 n2 id2) = 1 := by
  have ht : extractTokens n1 = extractTokens n2 := by
    rw [← extractTokens_eraseNames n1, ← extractTokens_eraseNames n2, h]
  refine ⟨ht, by rw [ht], fun f1 f2 id1 id2 => ?_⟩
  rw [createCodeBlock, createCodeBlock, calculateSimilarity]
  simp [ht]

/-- Witness for C8: `alpha + beta` and `gamma + delta` differ only in
identifier names. -/
theorem rename_invariance_witness :
    extractTokens renamedExpr1 = extractTokens renamedExpr2 ∧
    calculateHash (extractTokens renamedExpr1) = calculateHash (extractTokens renamedExpr2) ∧
    calculateSimilarity (createCodeBlock exampleParsedFile renamedExpr1 "x_0")
      (createCodeBlock exampleParsedFile renamedExpr2 "x_1") = 1 := by
  have h := rename_invariance renamedExpr1 renamedExpr2 (by rfl)
  exact ⟨h.1, h.2.1, h.2.2 exampleParsedFile exampleParsedFile "x_0" "x_1"⟩

/-- C9: a detector whose configuration is disabled returns the empty issue
list without consulting the traversal at all, and `detect` never propagates an
exception: its result is always `ok`, a caught internal failure merely
truncating the issue list to those already found.  The concrete embedded
detectors agree: disabled, the duplication detector returns no issues and
leaves its cross-file state untouched for every file, and the complexity
detector returns no issues for every file. -/
theorem detect_disabled_and_never_throws :
    (∀ (enabled : Bool) (body : List Issue × Option String),
      ∃ issues, detectGuard enabled body = Except.ok issues) ∧
    (∀ body body' : List Issue × Option String,
      detectGuard false body = Except.ok [] ∧ detectGuard false body = detectGuard false body') ∧
    (∀ (issues : List Issue) (err : String),
      detectGuard true (issues, some err) = Except.ok issues) ∧
    (∀ cfg : DuplicationConfig, cfg.enabled = false →
      ∀ (st : DupState) (file : ParsedFile), duplicationDetect cfg st file = ([], st)) ∧
    (∀ cfg : ComplexityConfig, cfg.enabled = false →
      ∀ file : ParsedFile, complexityDetect cfg file = []) := by
  refine ⟨fun enabled body => ?_, fun body body' => ⟨rfl, rfl⟩, fun issues err => rfl,
    fun cfg hcfg st file => ?_, fun cfg hcfg file => ?_⟩
  · cases enabled with
    | false => exact ⟨[], rfl⟩
    | true => exact ⟨body.1, rfl⟩
  · rw [duplicationDetect, hcfg]
    rfl
  · rw [complexityDetect, hcfg]
    rfl

/-- Witness for C9: a concretely disabled duplication and complexity
detector. -/
theorem detect_disabled_witness :
    duplicationDetect ⟨false, 6, 50, 85 / 100⟩ DupState.empty exampleParsedFile =
      ([], DupState.empty) ∧
    complexityDetect ⟨false, 10, 20⟩ exampleParsedFile = [] ∧
    detectGuard false ([exampleIssue], some "boom") = Except.ok [] := by
  refine ⟨?_, ?_, ?_⟩
  · exact (detect_disabled_and_never_throws.2.2.2.1 ⟨false, 6, 50, 85 / 100⟩ rfl
      DupState.empty exampleParsedFile)
  · exact (detect_disabled_and_never_throws.2.2.2.2 ⟨false, 10, 20⟩ rfl exampleParsedFile)
  · exact (detect_disabled_and_never_throws.2.1 ([exampleIssue], some "boom")
      ([], none)).1

end CodeReview
